import Mathlib

/-!
Verification of the `pal-mcp` secret keystore
(`packages/core/src/keystore.ts`).

The keystore is stateful code over the filesystem (keystore document,
fallback master-key file, keystore directory), the OS credential vault
(keytar), and the OS random generator.  We embed it as explicit state
passing over a record `St`; fallible operations return
`Except KSErr`.  AES-256-GCM (from `node:crypto`) is an external
library, modelled as an ideal authenticated stream cipher: a
position-dependent key stream derived injectively from (key, iv), and
an authentication tag that binds key, iv and ciphertext injectively —
the symbolic counterpart of GCM's correctness and authenticity
guarantees.  `crypto.randomBytes` is modelled as a counter supply
(field `rng`): each call returns the current counter and advances it.
-/

namespace PalKeystore

/-- Abstract byte string (plaintext / ciphertext bytes). -/
abbrev Bytes := List Nat

/-- One authenticated-encryption record, mirroring `KeystoreEntry`
(`iv`, `authTag`, `ciphertext`; hex strings in the source, abstracted
to a number for `iv`/`authTag` and a byte list for `ciphertext`). -/
structure KeystoreEntry where
  iv : Nat
  authTag : Nat
  ciphertext : Bytes
deriving DecidableEq, Repr, Inhabited

/-- The persisted keystore document, mirroring `KeystoreData`.
`secrets` is a JS object: an insertion-ordered map with unique keys,
embedded as an association list. -/
structure KeystoreData where
  version : Nat
  masterKeyInKeychain : Bool
  secrets : List (String × KeystoreEntry)
deriving DecidableEq, Repr, Inhabited

/-- Content of the keystore document file: either valid JSON encoding a
`KeystoreData`, or malformed text on which `JSON.parse` throws. -/
inductive DocFile where
  | malformed
  | good (d : KeystoreData)
deriving DecidableEq, Repr

/-- Errors that keystore operations can propagate to the caller:
`parseErr` is a `JSON.parse` failure in `loadKeystoreData`;
`vaultReadErr` is a throw from `keytar.getPassword` (which the source
does not wrap in try/catch). -/
inductive KSErr where
  | parseErr
  | vaultReadErr
deriving DecidableEq, Repr

/-- The world state a keystore operation acts on: the `~/.pal`
directory, the document file, the fallback `.master` key file, the
vault (availability, stored entry, and whether read/write calls
currently fail), and the random supply. -/
structure St where
  dirExists : Bool
  docFile : Option DocFile
  keyFile : Option Nat
  vaultAvail : Bool
  vaultEntry : Option Nat
  vaultReadFails : Bool
  vaultWriteFails : Bool
  rng : Nat
deriving DecidableEq, Repr

/-- Constant `KEYSTORE_FILE = path.join(KEYSTORE_DIR, 'keystore.json')` with
`KEYSTORE_DIR = path.join(os.homedir(), '.pal')`. -/
def KEYSTORE_FILE : String := "~/.pal/keystore.json"

/-- Function `ensureKeystoreDir`: `mkdirSync` if the directory is missing; the
net state effect is that the directory exists afterwards. -/
def ensureKeystoreDir (s : St) : St :=
  { s with dirExists := true }

/-- The document synthesized by `loadKeystoreData` when no file exists. -/
def emptyDoc : KeystoreData :=
  { version := 1, masterKeyInKeychain := false, secrets := [] }

/-- Function `loadKeystoreData`: ensure the directory, return a fresh empty
document if the file is absent, parse it otherwise (`JSON.parse`
throws on malformed content, uncaught). -/
def loadKeystoreData (s : St) : Except KSErr (KeystoreData × St) :=
  let s1 := ensureKeystoreDir s
  match s1.docFile with
  | none => .ok (emptyDoc, s1)
  | some .malformed => .error .parseErr
  | some (.good d) => .ok (d, s1)

/-- Function `saveKeystoreData`: ensure the directory and overwrite the document
file with the serialized data. -/
def saveKeystoreData (d : KeystoreData) (s : St) : St :=
  let s1 := ensureKeystoreDir s
  { s1 with docFile := some (.good d) }

/-- Injective encoding of a byte list into one natural number (used by
the model authentication tag). -/
def encBytesNat : Bytes → Nat
  | [] => 0
  | b :: t => Nat.pair b (encBytesNat t) + 1

/-- Model key stream of the ideal cipher: the pad added at position
`i` under (key, iv). -/
def keyStream (key iv i : Nat) : Nat :=
  Nat.pair key (Nat.pair iv i)

/-- Model cipher core: add the key stream position-wise. -/
def encryptBytes (key iv : Nat) : Nat → Bytes → Bytes
  | _, [] => []
  | i, b :: t => (b + keyStream key iv i) :: encryptBytes key iv (i + 1) t

/-- Model cipher core inverse: subtract the key stream position-wise. -/
def decryptBytes (key iv : Nat) : Nat → Bytes → Bytes
  | _, [] => []
  | i, b :: t => (b - keyStream key iv i) :: decryptBytes key iv (i + 1) t

/-- Model GCM authentication tag: binds key, iv and ciphertext
injectively. -/
def authTagOf (key iv : Nat) (c : Bytes) : Nat :=
  Nat.pair key (Nat.pair iv (encBytesNat c))

/-- UTF-8 plaintext bytes, abstracted as the code points. -/
def strToBytes (p : String) : Bytes :=
  p.data.map Char.toNat

def bytesToStr (b : Bytes) : String :=
  String.mk (b.map Char.ofNat)

/-- Function `encrypt(plaintext, key)`: draw a fresh random iv, run the cipher,
compute the tag. -/
def encrypt (plaintext : String) (key : Nat) (s : St) : KeystoreEntry × St :=
  let iv := s.rng
  let s1 := { s with rng := s.rng + 1 }
  let c := encryptBytes key iv 0 (strToBytes plaintext)
  ({ iv := iv, authTag := authTagOf key iv c, ciphertext := c }, s1)

/-- Function `decrypt(entry, key)`: GCM verifies the tag and throws on mismatch
(`decipher.final`); modelled as `none` on mismatch, the recovered
plaintext otherwise. -/
def decrypt (e : KeystoreEntry) (key : Nat) : Option String :=
  if e.authTag = authTagOf key e.iv e.ciphertext then
    some (bytesToStr (decryptBytes key e.iv 0 e.ciphertext))
  else
    none

/-- File-based fallback tail of `getMasterKey` (lines 73-82): reuse a
previously established `.master` file, else write the new key there,
record `masterKeyInKeychain = false` and persist. -/
def getMasterKeyFile (data : KeystoreData) (newKey : Nat) (s : St) :
    Except KSErr (Nat × St) :=
  match s.keyFile with
  | some k => .ok (k, s)
  | none =>
    let s1 := { s with keyFile := some newKey }
    .ok (newKey, saveKeystoreData { data with masterKeyInKeychain := false } s1)

/-- Key-generation tail of `getMasterKey` (lines 59-82): generate a
fresh key; if keytar is available try `setPassword` (success records
`masterKeyInKeychain = true` and persists; a throw is caught and falls
through), else use the file fallback. -/
def getMasterKeyGen (data : KeystoreData) (s : St) : Except KSErr (Nat × St) :=
  let newKey := s.rng
  let s1 := { s with rng := s.rng + 1 }
  if s1.vaultAvail then
    if s1.vaultWriteFails then
      getMasterKeyFile data newKey s1
    else
      let s2 := { s1 with vaultEntry := some newKey }
      .ok (newKey, saveKeystoreData { data with masterKeyInKeychain := true } s2)
  else
    getMasterKeyFile data newKey s1

/-- Function `getMasterKey` (lines 48-83): load keytar and the document; when
keytar is present and the document claims the key is in the keychain,
call `getPassword` (NOT wrapped in try/catch: a throw propagates);
a stored value is returned directly, otherwise fall through to
generation. -/
def getMasterKey (s : St) : Except KSErr (Nat × St) :=
  match loadKeystoreData s with
  | .error e => .error e
  | .ok (data, s1) =>
    if s1.vaultAvail && data.masterKeyInKeychain then
      if s1.vaultReadFails then
        .error .vaultReadErr
      else
        match s1.vaultEntry with
        | some k => .ok (k, s1)
        | none => getMasterKeyGen data s1
    else
      getMasterKeyGen data s1

/-- Reading `data.secrets[key]` on a JS object, as first-match lookup. -/
def lookupEntry : List (String × KeystoreEntry) → String → Option KeystoreEntry
  | [], _ => none
  | (k, e) :: t, id => if k = id then some e else lookupEntry t id

/-- Assignment `data.secrets[key] = entry` on a JS object: replace in place if the
key exists, append otherwise. -/
def setEntry : List (String × KeystoreEntry) → String → KeystoreEntry →
    List (String × KeystoreEntry)
  | [], id, e => [(id, e)]
  | (k, e0) :: t, id, e =>
    if k = id then (id, e) :: t else (k, e0) :: setEntry t id e

/-- Statement `delete data.secrets[key]` on a JS object: drop the binding. -/
def removeEntry : List (String × KeystoreEntry) → String →
    List (String × KeystoreEntry)
  | [], _ => []
  | (k, e) :: t, id =>
    if k = id then removeEntry t id else (k, e) :: removeEntry t id

/-- Function `storeSecret(key, value)` (lines 113-119). -/
def storeSecret (id value : String) (s : St) : Except KSErr St :=
  match getMasterKey s with
  | .error e => .error e
  | .ok (masterKey, s1) =>
    match loadKeystoreData s1 with
    | .error e => .error e
    | .ok (data, s2) =>
      let es3 := encrypt value masterKey s2
      .ok (saveKeystoreData
        { data with secrets := setEntry data.secrets id es3.1 } es3.2)

/-- Function `getSecret(key)` (lines 121-133): absent entry returns `null`
before any key acquisition; `decrypt` throws are caught and become
`null`. -/
def getSecret (id : String) (s : St) : Except KSErr (Option String × St) :=
  match loadKeystoreData s with
  | .error e => .error e
  | .ok (data, s1) =>
    match lookupEntry data.secrets id with
    | none => .ok (none, s1)
    | some entry =>
      match getMasterKey s1 with
      | .error e => .error e
      | .ok (masterKey, s2) => .ok (decrypt entry masterKey, s2)

/-- Function `deleteSecret(key)` (lines 135-143). -/
def deleteSecret (id : String) (s : St) : Except KSErr (Bool × St) :=
  match loadKeystoreData s with
  | .error e => .error e
  | .ok (data, s1) =>
    match lookupEntry data.secrets id with
    | none => .ok (false, s1)
    | some _ =>
      .ok (true,
        saveKeystoreData { data with secrets := removeEntry data.secrets id } s1)

/-- Function `listSecretKeys()` (lines 145-148): `Object.keys` in insertion
order. -/
def listSecretKeys (s : St) : Except KSErr (List String × St) :=
  match loadKeystoreData s with
  | .error e => .error e
  | .ok (data, s1) => .ok (data.secrets.map Prod.fst, s1)

/-- Function `hasSecret(key)` (lines 150-153): `key in data.secrets`. -/
def hasSecret (id : String) (s : St) : Except KSErr (Bool × St) :=
  match loadKeystoreData s with
  | .error e => .error e
  | .ok (data, s1) => .ok ((lookupEntry data.secrets id).isSome, s1)

/-- Function `getKeystoreInfo()` (lines 155-161). -/
def getKeystoreInfo (s : St) : Except KSErr ((String × Bool) × St) :=
  match loadKeystoreData s with
  | .error e => .error e
  | .ok (data, s1) => .ok ((KEYSTORE_FILE, data.masterKeyInKeychain), s1)

/-- The document currently persisted in `s` as `loadKeystoreData` would
deliver it (synthesized empty when the file is absent). -/
def docDataOf (s : St) : KeystoreData :=
  match s.docFile with
  | some (.good d) => d
  | _ => emptyDoc

/-- The document file is not malformed (so `JSON.parse` succeeds or the
file is absent). -/
def docOk (s : St) : Prop :=
  s.docFile ≠ some .malformed

instance (s : St) : Decidable (docOk s) := by
  unfold docOk; infer_instance

/-- Well-formed persisted state: the document's secret identifiers are
pairwise distinct, as JSON object keys are. -/
def WFSt (s : St) : Prop :=
  ((docDataOf s).secrets.map Prod.fst).Nodup

/-- After a successful acquisition the state pins down the master key:
either the vault holds it and the persisted flag points there, or the
fallback file holds it and the vault path cannot supersede it (vault
absent or its writes failing, and no stale vault entry reachable). -/
def KeyEstablished (s : St) (k : Nat) : Prop :=
  (s.vaultAvail = true ∧ (docDataOf s).masterKeyInKeychain = true ∧
    s.vaultEntry = some k)
  ∨ ((s.vaultAvail = false ∨ s.vaultWriteFails = true) ∧ s.keyFile = some k ∧
    (s.vaultAvail = true → (docDataOf s).masterKeyInKeychain = true →
      s.vaultEntry = none))

/-- The state obtained by replacing the entry stored under `id` with a
corrupted entry `e1` (the attacker edits the document file in place). -/
def tamperEntry (s : St) (id : String) (e1 : KeystoreEntry) : St :=
  { s with docFile := some (.good
      (KeystoreData.mk (docDataOf s).version
        (docDataOf s).masterKeyInKeychain
        (setEntry (docDataOf s).secrets id e1))) }

/-- Fresh install on a machine without the vault integration: no
directory, no document, no key file, keytar unavailable. -/
def demoS : St :=
  { dirExists := false, docFile := none, keyFile := none,
    vaultAvail := false, vaultEntry := none, vaultReadFails := false,
    vaultWriteFails := false, rng := 0 }

def okState (dflt : St) : Except KSErr St → St
  | .ok t => t
  | .error _ => dflt

def okKeySt (dflt : Nat × St) : Except KSErr (Nat × St) → Nat × St
  | .ok t => t
  | .error _ => dflt

/-- State after storing one secret on the fresh install. -/
def demoStored : St :=
  okState demoS (storeSecret "proj:openai" "x" demoS)

/-- The entry stored under `proj:openai` in `demoStored`. -/
def demoEntry : KeystoreEntry :=
  (lookupEntry (docDataOf demoStored).secrets "proj:openai").getD
    ⟨0, 0, []⟩

/-- Entry `demoEntry` with its authentication tag corrupted. -/
def demoTampered : KeystoreEntry :=
  ⟨demoEntry.iv, demoEntry.authTag + 1, demoEntry.ciphertext⟩

/-- Result of the first master-key acquisition on the fresh install. -/
def demoGM : Nat × St :=
  okKeySt (0, demoS) (getMasterKey demoS)

/-- Vault available and the document pointing at it, but vault reads
currently throwing (for instance the keychain daemon erroring). -/
def cexVaultSt : St :=
  { dirExists := true,
    docFile := some (.good ⟨1, true, [("proj:openai", ⟨0, 0, []⟩)]⟩),
    keyFile := none, vaultAvail := true, vaultEntry := some 5,
    vaultReadFails := true, vaultWriteFails := false, rng := 0 }

/-- State whose keystore directory does not exist yet. -/
def cexDirSt : St :=
  { dirExists := false, docFile := none, keyFile := none,
    vaultAvail := false, vaultEntry := none, vaultReadFails := false,
    vaultWriteFails := false, rng := 0 }

/-- Malformed persisted document. -/
def cexMalSt : St :=
  { dirExists := true, docFile := some .malformed, keyFile := none,
    vaultAvail := false, vaultEntry := none, vaultReadFails := false,
    vaultWriteFails := false, rng := 0 }

/-! ### Frame lemmas for the elementary state operations -/

@[simp] theorem ensureKeystoreDir_docFile (s : St) :
    (ensureKeystoreDir s).docFile = s.docFile := rfl

@[simp] theorem ensureKeystoreDir_keyFile (s : St) :
    (ensureKeystoreDir s).keyFile = s.keyFile := rfl

@[simp] theorem ensureKeystoreDir_vaultAvail (s : St) :
    (ensureKeystoreDir s).vaultAvail = s.vaultAvail := rfl

@[simp] theorem ensureKeystoreDir_vaultEntry (s : St) :
    (ensureKeystoreDir s).vaultEntry = s.vaultEntry := rfl

@[simp] theorem ensureKeystoreDir_vaultReadFails (s : St) :
    (ensureKeystoreDir s).vaultReadFails = s.vaultReadFails := rfl

@[simp] theorem ensureKeystoreDir_vaultWriteFails (s : St) :
    (ensureKeystoreDir s).vaultWriteFails = s.vaultWriteFails := rfl

@[simp] theorem ensureKeystoreDir_rng (s : St) :
    (ensureKeystoreDir s).rng = s.rng := rfl

@[simp] theorem ensureKeystoreDir_dirExists (s : St) :
    (ensureKeystoreDir s).dirExists = true := rfl

@[simp] theorem saveKeystoreData_docFile (d : KeystoreData) (s : St) :
    (saveKeystoreData d s).docFile = some (.good d) := rfl

@[simp] theorem saveKeystoreData_keyFile (d : KeystoreData) (s : St) :
    (saveKeystoreData d s).keyFile = s.keyFile := rfl

@[simp] theorem saveKeystoreData_vaultAvail (d : KeystoreData) (s : St) :
    (saveKeystoreData d s).vaultAvail = s.vaultAvail := rfl

@[simp] theorem saveKeystoreData_vaultEntry (d : KeystoreData) (s : St) :
    (saveKeystoreData d s).vaultEntry = s.vaultEntry := rfl

@[simp] theorem saveKeystoreData_vaultReadFails (d : KeystoreData) (s : St) :
    (saveKeystoreData d s).vaultReadFails = s.vaultReadFails := rfl

@[simp] theorem saveKeystoreData_vaultWriteFails (d : KeystoreData) (s : St) :
    (saveKeystoreData d s).vaultWriteFails = s.vaultWriteFails := rfl

@[simp] theorem saveKeystoreData_rng (d : KeystoreData) (s : St) :
    (saveKeystoreData d s).rng = s.rng := rfl

@[simp] theorem docDataOf_none (s : St) (h : s.docFile = none) :
    docDataOf s = emptyDoc := by
  simp [docDataOf, h]

@[simp] theorem docDataOf_good (s : St) (d : KeystoreData)
    (h : s.docFile = some (.good d)) : docDataOf s = d := by
  simp [docDataOf, h]

/-! ### The ideal cipher model: round trip and tag injectivity -/

theorem decryptBytes_encryptBytes (key iv : Nat) :
    ∀ (i : Nat) (p : Bytes),
      decryptBytes key iv i (encryptBytes key iv i p) = p := by
  intro i p
  induction p generalizing i with
  | nil => simp [encryptBytes, decryptBytes]
  | cons b t ih => simp [encryptBytes, decryptBytes, ih]

theorem bytesToStr_strToBytes (p : String) : bytesToStr (strToBytes p) = p := by
  cases p with
  | mk data =>
    simp [bytesToStr, strToBytes, List.map_map, Function.comp_def]

theorem encBytesNat_injective : Function.Injective encBytesNat := by
  intro a b h
  induction a generalizing b with
  | nil =>
    cases b with
    | nil => rfl
    | cons x t => simp [encBytesNat] at h
  | cons x t ih =>
    cases b with
    | nil => simp [encBytesNat] at h
    | cons y u =>
      simp only [encBytesNat, Nat.add_right_cancel_iff, Nat.pair_eq_pair] at h
      obtain ⟨rfl, h2⟩ := h
      rw [ih h2]

theorem authTagOf_ct_injective (key iv : Nat) (c c' : Bytes)
    (h : authTagOf key iv c = authTagOf key iv c') : c = c' := by
  simp only [authTagOf, Nat.pair_eq_pair] at h
  exact encBytesNat_injective h.2.2

/-- Decryption under the same key inverts encryption. -/
theorem decrypt_encrypt (p : String) (key : Nat) (s : St) :
    decrypt (encrypt p key s).1 key = some p := by
  simp [decrypt, encrypt, decryptBytes_encryptBytes, bytesToStr_strToBytes]

/-! ### Association-list lemmas (JS object semantics) -/

theorem lookupEntry_setEntry_self (l : List (String × KeystoreEntry))
    (id : String) (e : KeystoreEntry) :
    lookupEntry (setEntry l id e) id = some e := by
  induction l with
  | nil => simp [setEntry, lookupEntry]
  | cons p t ih =>
    obtain ⟨k, e0⟩ := p
    by_cases h : k = id <;> simp [setEntry, lookupEntry, h, ih]

theorem lookupEntry_setEntry_other (l : List (String × KeystoreEntry))
    (id j : String) (e : KeystoreEntry) (hj : j ≠ id) :
    lookupEntry (setEntry l id e) j = lookupEntry l j := by
  induction l with
  | nil => simp [setEntry, lookupEntry, Ne.symm hj]
  | cons p t ih =>
    obtain ⟨k, e0⟩ := p
    by_cases h : k = id
    · subst h
      simp [setEntry, lookupEntry, Ne.symm hj]
    · simp [setEntry, lookupEntry, h, ih]

theorem mem_keys_setEntry (l : List (String × KeystoreEntry))
    (id x : String) (e : KeystoreEntry)
    (h : x ∈ (setEntry l id e).map Prod.fst) :
    x = id ∨ x ∈ l.map Prod.fst := by
  induction l with
  | nil => simpa [setEntry] using h
  | cons p t ih =>
    obtain ⟨k, e0⟩ := p
    by_cases hk : k = id
    · subst hk
      simpa [setEntry] using h
    · simp only [setEntry, if_neg hk, List.map_cons, List.mem_cons] at h
      rcases h with h | h
      · exact Or.inr (by simp [h])
      · rcases ih h with h | h
        · exact Or.inl h
        · exact Or.inr (by simp [h])

theorem keys_setEntry_nodup (l : List (String × KeystoreEntry))
    (id : String) (e : KeystoreEntry)
    (h : (l.map Prod.fst).Nodup) :
    ((setEntry l id e).map Prod.fst).Nodup := by
  induction l with
  | nil => simp [setEntry]
  | cons p t ih =>
    obtain ⟨k, e0⟩ := p
    simp only [List.map_cons, List.nodup_cons] at h
    by_cases hk : k = id
    · subst hk
      simpa [setEntry] using h
    · have hmem : k ∉ (setEntry t id e).map Prod.fst := by
        intro hmem
        rcases mem_keys_setEntry t id k e hmem with h' | h'
        · exact hk h'
        · exact h.1 h'
      simp only [setEntry, if_neg hk, List.map_cons, List.nodup_cons]
      exact ⟨hmem, ih h.2⟩

theorem count_keys_setEntry (l : List (String × KeystoreEntry))
    (id : String) (e : KeystoreEntry)
    (h : (l.map Prod.fst).Nodup) :
    ((setEntry l id e).map Prod.fst).count id = 1 := by
  induction l with
  | nil => simp [setEntry]
  | cons p t ih =>
    obtain ⟨k, e0⟩ := p
    simp only [List.map_cons, List.nodup_cons] at h
    by_cases hk : k = id
    · subst hk
      have : (t.map Prod.fst).count k = 0 := List.count_eq_zero.mpr h.1
      simp [setEntry, List.count_cons, this]
    · simp [setEntry, hk, List.count_cons, ih h.2, Ne.symm hk]

theorem lookupEntry_removeEntry_self (l : List (String × KeystoreEntry))
    (id : String) :
    lookupEntry (removeEntry l id) id = none := by
  induction l with
  | nil => simp [removeEntry, lookupEntry]
  | cons p t ih =>
    obtain ⟨k, e⟩ := p
    by_cases h : k = id <;> simp [removeEntry, lookupEntry, h, ih]

theorem lookupEntry_removeEntry_other (l : List (String × KeystoreEntry))
    (id j : String) (hj : j ≠ id) :
    lookupEntry (removeEntry l id) j = lookupEntry l j := by
  induction l with
  | nil => simp [removeEntry]
  | cons p t ih =>
    obtain ⟨k, e⟩ := p
    by_cases h : k = id
    · subst h
      simp [removeEntry, lookupEntry, Ne.symm hj, ih]
    · by_cases hkj : k = j <;>
        simp [removeEntry, lookupEntry, h, hkj, hj, ih]

/-! ### Master-key acquisition: establishment and stability -/


/-- Predicate `KeyEstablished` only looks at the vault fields, the key file and
the persisted flag. -/
theorem keyEstablished_congr (s t : St) (k : Nat)
    (h : KeyEstablished s k)
    (hAv : t.vaultAvail = s.vaultAvail)
    (hWf : t.vaultWriteFails = s.vaultWriteFails)
    (hEnt : t.vaultEntry = s.vaultEntry)
    (hKf : t.keyFile = s.keyFile)
    (hFlag : (docDataOf t).masterKeyInKeychain =
      (docDataOf s).masterKeyInKeychain) :
    KeyEstablished t k := by
  unfold KeyEstablished at h ⊢
  rw [hAv, hWf, hEnt, hKf, hFlag]
  exact h

/-- A successful `getMasterKey` establishes its key, preserves the
vault environment flags, leaves a well-formed document whose secrets
are unchanged, and keeps the flag persisted consistently. -/
theorem getMasterKey_ok_spec (s : St) (k : Nat) (s1 : St)
    (hrf : s.vaultReadFails = false)
    (h : getMasterKey s = .ok (k, s1)) :
    KeyEstablished s1 k ∧
    s1.vaultAvail = s.vaultAvail ∧
    s1.vaultReadFails = s.vaultReadFails ∧
    s1.vaultWriteFails = s.vaultWriteFails ∧
    docOk s1 ∧
    (docDataOf s1).secrets = (docDataOf s).secrets := by
  obtain ⟨dir, doc, kf, av, ent, rf, wf, rng⟩ := s
  simp only at hrf
  subst hrf
  rcases doc with _ | df
  · cases av <;> cases ent <;> cases wf <;> cases kf <;>
      (simp [getMasterKey, loadKeystoreData, getMasterKeyGen,
          getMasterKeyFile, ensureKeystoreDir, saveKeystoreData] at h;
        obtain ⟨rfl, rfl⟩ := h;
        simp [KeyEstablished, docDataOf, docOk, emptyDoc])
  · rcases df with _ | ⟨v, flag, secrets⟩
    · simp [getMasterKey, loadKeystoreData, ensureKeystoreDir] at h
    · cases flag <;> cases av <;> cases ent <;> cases wf <;> cases kf <;>
        (simp [getMasterKey, loadKeystoreData, getMasterKeyGen,
            getMasterKeyFile, ensureKeystoreDir, saveKeystoreData] at h;
          obtain ⟨rfl, rfl⟩ := h;
          simp [KeyEstablished, docDataOf, docOk, emptyDoc])

/-- On a state whose key is established, `getMasterKey` returns exactly
that key and performs no writes: document, key file and vault entry are
untouched. -/
theorem getMasterKey_established (t : St) (k : Nat)
    (hest : KeyEstablished t k)
    (hrf : t.vaultReadFails = false)
    (hok : docOk t) :
    ∃ t1, getMasterKey t = .ok (k, t1) ∧
      t1.docFile = t.docFile ∧
      t1.keyFile = t.keyFile ∧
      t1.vaultEntry = t.vaultEntry ∧
      t1.vaultAvail = t.vaultAvail ∧
      t1.vaultReadFails = t.vaultReadFails ∧
      t1.vaultWriteFails = t.vaultWriteFails := by
  obtain ⟨dir, doc, kf, av, ent, rf, wf, rng⟩ := t
  simp only at hrf
  subst hrf
  rcases doc with _ | df
  · cases av <;> cases ent <;> cases wf <;> cases kf <;>
      simp_all [getMasterKey, loadKeystoreData, getMasterKeyGen,
        getMasterKeyFile, ensureKeystoreDir, saveKeystoreData, docDataOf,
        emptyDoc, docOk, KeyEstablished]
  · rcases df with _ | ⟨v, flag, secrets⟩
    · simp [docOk] at hok
    · cases flag <;> cases av <;> cases ent <;> cases wf <;> cases kf <;>
        simp_all [getMasterKey, loadKeystoreData, getMasterKeyGen,
          getMasterKeyFile, ensureKeystoreDir, saveKeystoreData, docDataOf,
          emptyDoc, docOk, KeyEstablished]


/-- With a readable document, `loadKeystoreData` returns the persisted
document (or the synthesized empty one) and only ensures the
directory. -/
theorem loadKeystoreData_ok (t : St) (hok : docOk t) :
    loadKeystoreData t = .ok (docDataOf t, ensureKeystoreDir t) := by
  unfold loadKeystoreData
  rcases h : t.docFile with _ | df
  · simp [docDataOf, ensureKeystoreDir, h]
  · rcases df with _ | d
    · exact absurd h hok
    · simp [docDataOf, ensureKeystoreDir, h]

/-- Anatomy of a successful `storeSecret`: some key `k` got
established, the new document is the old one with the freshly
encrypted entry `e` written under `id`, and `e` decrypts back to the
plaintext under `k`. -/
theorem storeSecret_ok_spec (s : St) (id p : String) (s' : St)
    (hrf : s.vaultReadFails = false)
    (h : storeSecret id p s = .ok s') :
    ∃ k e,
      decrypt e k = some p ∧
      KeyEstablished s' k ∧
      docOk s' ∧
      s'.vaultReadFails = false ∧
      s'.vaultAvail = s.vaultAvail ∧
      s'.vaultWriteFails = s.vaultWriteFails ∧
      (docDataOf s').secrets = setEntry (docDataOf s).secrets id e := by
  unfold storeSecret at h
  rcases hgm : getMasterKey s with e0 | ks1
  · simp [hgm] at h
  obtain ⟨k, s1⟩ := ks1
  obtain ⟨hest, hav, hrf1, hwf, hok1, hsec⟩ :=
    getMasterKey_ok_spec s k s1 hrf hgm
  simp only [hgm, loadKeystoreData_ok s1 hok1, Except.ok.injEq] at h
  subst h
  refine ⟨k, (encrypt p k (ensureKeystoreDir s1)).1, decrypt_encrypt p k _,
    ?_, ?_, ?_, ?_, ?_, ?_⟩
  · refine keyEstablished_congr s1 _ k hest ?_ ?_ ?_ ?_ ?_
    · simp [encrypt]
    · simp [encrypt]
    · simp [encrypt]
    · simp [encrypt]
    · simp [encrypt, docDataOf]
  · simp [docOk, encrypt]
  · simpa [encrypt] using hrf1.trans hrf
  · simpa [encrypt] using hav
  · simpa [encrypt] using hwf
  · have h2 : (docDataOf s1).secrets = (docDataOf s).secrets := hsec
    simp only [docDataOf] at h2
    simp [encrypt, docDataOf, h2]

/-- On a state with an established key, `getSecret` on a present entry
returns its decryption under that key. -/
theorem getSecret_established (s : St) (id : String) (k : Nat)
    (e : KeystoreEntry)
    (hok : docOk s)
    (hest : KeyEstablished s k)
    (hrf : s.vaultReadFails = false)
    (he : lookupEntry (docDataOf s).secrets id = some e) :
    ∃ s2, getSecret id s = .ok (decrypt e k, s2) := by
  have hest1 : KeyEstablished (ensureKeystoreDir s) k := by
    refine keyEstablished_congr s _ k hest ?_ ?_ ?_ ?_ ?_ <;>
      simp [docDataOf]
  have hok1 : docOk (ensureKeystoreDir s) := by
    simpa [docOk] using hok
  obtain ⟨t1, hgm, -⟩ :=
    getMasterKey_established (ensureKeystoreDir s) k hest1 (by simpa using hrf)
      hok1
  refine ⟨t1, ?_⟩
  unfold getSecret
  rw [loadKeystoreData_ok s hok]
  simp only [he, hgm]

/-- C1 (round-trip): a completed `storeSecret id p` followed by
`getSecret id`, with no intervening mutation of the document or master
key (and the vault environment unchanged, its reads functioning),
returns exactly `some p`. -/
theorem storeSecret_getSecret_roundTrip (s s' : St) (id p : String)
    (hrf : s.vaultReadFails = false)
    (h : storeSecret id p s = .ok s') :
    ∃ s2, getSecret id s' = .ok (some p, s2) := by
  obtain ⟨k, e, hdec, hest, hok, hrf', -, -, hsec⟩ :=
    storeSecret_ok_spec s id p s' hrf h
  have he : lookupEntry (docDataOf s').secrets id = some e := by
    rw [hsec]; exact lookupEntry_setEntry_self _ id e
  obtain ⟨s2, hg⟩ := getSecret_established s' id k e hok hest hrf' he
  exact ⟨s2, by rw [hg, hdec]⟩

/-- On a state with an established key and a readable document,
`storeSecret` succeeds. -/
theorem storeSecret_established (s : St) (id p : String) (k : Nat)
    (hok : docOk s)
    (hest : KeyEstablished s k)
    (hrf : s.vaultReadFails = false) :
    ∃ s', storeSecret id p s = .ok s' := by
  obtain ⟨t1, hgm, hdoc, -⟩ := getMasterKey_established s k hest hrf hok
  have hok1 : docOk t1 := by
    simpa [docOk, hdoc] using hok
  have h : storeSecret id p s = .ok (saveKeystoreData
      (KeystoreData.mk (docDataOf t1).version
        (docDataOf t1).masterKeyInKeychain
        (setEntry (docDataOf t1).secrets id
          (encrypt p k (ensureKeystoreDir t1)).1))
      (encrypt p k (ensureKeystoreDir t1)).2) := by
    unfold storeSecret
    simp only [hgm, loadKeystoreData_ok t1 hok1]
  exact ⟨_, h⟩

/-- Generation tail `getMasterKeyGen` never raises: every branch returns a key. -/
theorem getMasterKeyGen_ne_error (data : KeystoreData) (s : St) (e : KSErr) :
    getMasterKeyGen data s ≠ .error e := by
  unfold getMasterKeyGen getMasterKeyFile
  rcases hav : s.vaultAvail with _ | _ <;>
    rcases hwf : s.vaultWriteFails with _ | _ <;>
      rcases hkf : s.keyFile with _ | k <;>
        simp [hav, hwf, hkf]

/-- Loading `loadKeystoreData` can only raise the JSON-parse error. -/
theorem loadKeystoreData_error_eq (t : St) (e : KSErr)
    (h : loadKeystoreData t = .error e) : e = .parseErr := by
  unfold loadKeystoreData at h
  rcases hdoc : t.docFile with _ | df
  · simp [hdoc, ensureKeystoreDir] at h
  · rcases df with _ | d <;> simp [hdoc, ensureKeystoreDir] at h
    exact h.symm

/-- When vault reads do not fail, `getMasterKey` can only raise the
JSON-parse error. -/
theorem getMasterKey_no_vaultReadErr (s : St)
    (hrf : s.vaultReadFails = false) :
    getMasterKey s ≠ .error .vaultReadErr := by
  obtain ⟨dir, doc, kf, av, ent, rf, wf, rng⟩ := s
  simp only at hrf
  subst hrf
  rcases doc with _ | df
  · cases av <;> cases ent <;> cases wf <;> cases kf <;>
      simp [getMasterKey, loadKeystoreData, getMasterKeyGen,
        getMasterKeyFile, ensureKeystoreDir, saveKeystoreData, emptyDoc]
  · rcases df with _ | ⟨v, flag, secrets⟩
    · simp [getMasterKey, loadKeystoreData, ensureKeystoreDir]
    · cases flag <;> cases av <;> cases ent <;> cases wf <;> cases kf <;>
        simp [getMasterKey, loadKeystoreData, getMasterKeyGen,
          getMasterKeyFile, ensureKeystoreDir, saveKeystoreData, emptyDoc]

/-- When vault reads do not fail, `storeSecret` never surfaces a vault
error (vault write failures are swallowed by the fallback chain). -/
theorem storeSecret_no_vaultReadErr (s : St) (id p : String)
    (hrf : s.vaultReadFails = false) :
    storeSecret id p s ≠ .error .vaultReadErr := by
  unfold storeSecret
  rcases hgm : getMasterKey s with e | ks
  · cases e
    · simp [hgm]
    · exact absurd hgm (getMasterKey_no_vaultReadErr s hrf)
  · obtain ⟨k, s1⟩ := ks
    rcases hld : loadKeystoreData s1 with e | ds
    · have := loadKeystoreData_error_eq s1 e hld
      subst this
      simp [hgm, hld]
    · obtain ⟨d, s2⟩ := ds
      simp [hgm, hld]

/-- When vault reads do not fail, `getSecret` never surfaces a vault
error. -/
theorem getSecret_no_vaultReadErr (s : St) (id : String)
    (hrf : s.vaultReadFails = false) :
    getSecret id s ≠ .error .vaultReadErr := by
  unfold getSecret
  rcases hld : loadKeystoreData s with e | ds
  · have := loadKeystoreData_error_eq s e hld
    subst this
    simp [hld]
  · obtain ⟨d, s1⟩ := ds
    rcases hle : lookupEntry d.secrets id with _ | entry
    · simp [hld, hle]
    · rcases hgm : getMasterKey s1 with e | ks
      · cases e
        · simp [hld, hle, hgm]
        · have hs1 : s1 = ensureKeystoreDir s := by
            unfold loadKeystoreData at hld
            rcases hdoc : s.docFile with _ | df
            · simp [hdoc] at hld
              exact hld.2.symm
            · rcases df with _ | d' <;> simp [hdoc] at hld
              exact hld.2.symm
          have hrf1 : s1.vaultReadFails = false := by
            rw [hs1]; simpa using hrf
          exact absurd hgm (getMasterKey_no_vaultReadErr s1 hrf1)
      · obtain ⟨k, s2⟩ := ks
        simp [hld, hle, hgm]

/-- With a malformed document file, `loadKeystoreData` raises the
parse error. -/
theorem loadKeystoreData_malformed (s : St)
    (h : s.docFile = some .malformed) :
    loadKeystoreData s = .error .parseErr := by
  unfold loadKeystoreData
  simp [h]

/-- C5 (amended): `getKeystoreInfo` returns the fixed on-disk document
path and the persisted `masterKeyInKeychain` flag, and leaves the
document, master-key storage, vault and random supply unchanged; its
only filesystem effect is creating the keystore directory when it is
missing (via `ensureKeystoreDir` inside `loadKeystoreData`). -/
theorem getKeystoreInfo_spec (s : St) (hok : docOk s) :
    getKeystoreInfo s =
      .ok ((KEYSTORE_FILE, (docDataOf s).masterKeyInKeychain),
        ensureKeystoreDir s) ∧
    (ensureKeystoreDir s).docFile = s.docFile ∧
    (ensureKeystoreDir s).keyFile = s.keyFile ∧
    (ensureKeystoreDir s).vaultEntry = s.vaultEntry ∧
    (ensureKeystoreDir s).rng = s.rng ∧
    (ensureKeystoreDir s).dirExists = true := by
  refine ⟨?_, rfl, rfl, rfl, rfl, rfl⟩
  unfold getKeystoreInfo
  rw [loadKeystoreData_ok s hok]

/-- C9: `hasSecret` is a pure existence check against the persisted
mapping: it returns true exactly when a record is present (regardless
of decryptability, since no decryption and no master-key acquisition
happens), and writes neither the document nor any key material. -/
theorem hasSecret_spec (s : St) (id : String) (hok : docOk s) :
    hasSecret id s =
      .ok ((lookupEntry (docDataOf s).secrets id).isSome,
        ensureKeystoreDir s) ∧
    (ensureKeystoreDir s).docFile = s.docFile ∧
    (ensureKeystoreDir s).keyFile = s.keyFile ∧
    (ensureKeystoreDir s).vaultEntry = s.vaultEntry ∧
    (ensureKeystoreDir s).rng = s.rng := by
  refine ⟨?_, rfl, rfl, rfl, rfl⟩
  unfold hasSecret
  rw [loadKeystoreData_ok s hok]

/-- C10: `getSecret` on an absent identifier returns `null` before any
key acquisition: no key is generated (`rng` untouched), no vault entry
changes, no master-key file is created, and the document is not
written. -/
theorem getSecret_absent_spec (s : St) (id : String) (hok : docOk s)
    (habs : lookupEntry (docDataOf s).secrets id = none) :
    getSecret id s = .ok (none, ensureKeystoreDir s) ∧
    (ensureKeystoreDir s).docFile = s.docFile ∧
    (ensureKeystoreDir s).keyFile = s.keyFile ∧
    (ensureKeystoreDir s).vaultEntry = s.vaultEntry ∧
    (ensureKeystoreDir s).rng = s.rng := by
  refine ⟨?_, rfl, rfl, rfl, rfl⟩
  unfold getSecret
  rw [loadKeystoreData_ok s hok]
  simp [habs]

/-- C8: a malformed persisted document makes every keystore operation
propagate the parse failure as a hard error, with no silent recovery
and no synthesized empty document. -/
theorem malformedDoc_spec (s : St) (id p : String)
    (h : s.docFile = some .malformed) :
    storeSecret id p s = .error .parseErr ∧
    getSecret id s = .error .parseErr ∧
    deleteSecret id s = .error .parseErr ∧
    hasSecret id s = .error .parseErr ∧
    listSecretKeys s = .error .parseErr ∧
    getKeystoreInfo s = .error .parseErr := by
  have hld := loadKeystoreData_malformed s h
  have hgm : getMasterKey s = .error .parseErr := by
    unfold getMasterKey
    rw [hld]
  refine ⟨?_, ?_, ?_, ?_, ?_, ?_⟩ <;>
    first
      | (unfold storeSecret; rw [hgm])
      | (unfold getSecret; rw [hld])
      | (unfold deleteSecret; rw [hld])
      | (unfold hasSecret; rw [hld])
      | (unfold listSecretKeys; rw [hld])
      | (unfold getKeystoreInfo; rw [hld])

/-- C6: `deleteSecret` on a present identifier returns true, removes
exactly that entry and persists the document; on an absent identifier
it returns false and the persisted state is unchanged. -/
theorem deleteSecret_spec (s : St) (id : String) (hok : docOk s) :
    (∀ e, lookupEntry (docDataOf s).secrets id = some e →
      ∃ s', deleteSecret id s = .ok (true, s') ∧
        s'.docFile = some (.good (docDataOf s')) ∧
        lookupEntry (docDataOf s').secrets id = none ∧
        (∀ j, j ≠ id → lookupEntry (docDataOf s').secrets j =
          lookupEntry (docDataOf s).secrets j)) ∧
    (lookupEntry (docDataOf s).secrets id = none →
      ∃ s', deleteSecret id s = .ok (false, s') ∧
        s'.docFile = s.docFile ∧ s'.keyFile = s.keyFile) := by
  constructor
  · intro e he
    have h : deleteSecret id s = .ok (true, saveKeystoreData
        (KeystoreData.mk (docDataOf s).version
          (docDataOf s).masterKeyInKeychain
          (removeEntry (docDataOf s).secrets id)) (ensureKeystoreDir s)) := by
      unfold deleteSecret
      rw [loadKeystoreData_ok s hok]
      simp [he]
    refine ⟨_, h, by simp, ?_, ?_⟩
    · simpa [docDataOf] using
        lookupEntry_removeEntry_self (docDataOf s).secrets id
    · intro j hj
      simpa [docDataOf] using
        lookupEntry_removeEntry_other (docDataOf s).secrets id j hj
  · intro habs
    have h : deleteSecret id s = .ok (false, ensureKeystoreDir s) := by
      unfold deleteSecret
      rw [loadKeystoreData_ok s hok]
      simp [habs]
    exact ⟨_, h, rfl, rfl⟩


/-- C3 (tamper detection): corrupting the ciphertext or the auth tag of
a stored entry makes the subsequent `getSecret` return absent (`none`),
and the operation still completes without raising. -/
theorem tamper_spec (s s' : St) (id p : String) (e e1 : KeystoreEntry)
    (hrf : s.vaultReadFails = false)
    (h : storeSecret id p s = .ok s')
    (he : lookupEntry (docDataOf s').secrets id = some e)
    (hiv : e1.iv = e.iv)
    (ht : (e1.ciphertext ≠ e.ciphertext ∧ e1.authTag = e.authTag) ∨
      (e1.ciphertext = e.ciphertext ∧ e1.authTag ≠ e.authTag)) :
    ∃ s2, getSecret id (tamperEntry s' id e1) = .ok (none, s2) := by
  obtain ⟨k, e0, hdec, hest, hok, hrf', -, -, hsec⟩ :=
    storeSecret_ok_spec s id p s' hrf h
  have he0 : lookupEntry (docDataOf s').secrets id = some e0 := by
    rw [hsec]; exact lookupEntry_setEntry_self _ id e0
  have hee : e0 = e := by
    have := he0.symm.trans he
    simpa using this
  rw [hee] at hdec hsec
  -- the stored entry authenticates under k
  have htag : e.authTag = authTagOf k e.iv e.ciphertext := by
    by_contra hcon
    simp [decrypt, hcon] at hdec
  -- frames of the tampered state
  have hokT : docOk (tamperEntry s' id e1) := by
    simp [docOk, tamperEntry]
  have hestT : KeyEstablished (tamperEntry s' id e1) k := by
    refine keyEstablished_congr s' _ k hest ?_ ?_ ?_ ?_ ?_ <;>
      simp [tamperEntry, docDataOf]
  have hrfT : (tamperEntry s' id e1).vaultReadFails = false := by
    simpa [tamperEntry] using hrf'
  have heT : lookupEntry (docDataOf (tamperEntry s' id e1)).secrets id =
      some e1 := by
    simp [tamperEntry, docDataOf]
    exact lookupEntry_setEntry_self _ id e1
  obtain ⟨s2, hg⟩ :=
    getSecret_established (tamperEntry s' id e1) id k e1 hokT hestT hrfT heT
  refine ⟨s2, ?_⟩
  rw [hg]
  have hd1 : decrypt e1 k = none := by
    rcases ht with ⟨hct, hat⟩ | ⟨hct, hat⟩
    · have : e1.authTag ≠ authTagOf k e1.iv e1.ciphertext := by
        rw [hat, htag, hiv]
        intro hcon
        exact hct (authTagOf_ct_injective k e.iv _ _ hcon.symm)
      simp [decrypt, this]
    · have : e1.authTag ≠ authTagOf k e1.iv e1.ciphertext := by
        rw [hiv, hct]
        rw [← htag]
        exact hat
      simp [decrypt, this]
  rw [hd1]

/-- C7 (overwrite idempotence): storing twice under the same
identifier raises no error, leaves only the latest plaintext
retrievable, lists the identifier exactly once, and keeps every entry
for any other identifier as it was before both stores. -/
theorem overwrite_spec (s s1 : St) (id p1 p2 : String)
    (hrf : s.vaultReadFails = false)
    (hwfs : WFSt s)
    (h1 : storeSecret id p1 s = .ok s1) :
    ∃ s2, storeSecret id p2 s1 = .ok s2 ∧
      (∃ s3, getSecret id s2 = .ok (some p2, s3)) ∧
      (∃ s4, listSecretKeys s2 =
          .ok ((docDataOf s2).secrets.map Prod.fst, s4) ∧
        ((docDataOf s2).secrets.map Prod.fst).count id = 1) ∧
      (∀ j, j ≠ id → lookupEntry (docDataOf s2).secrets j =
        lookupEntry (docDataOf s).secrets j) := by
  obtain ⟨k1, e1, hdec1, hest1, hok1, hrf1, -, -, hsec1⟩ :=
    storeSecret_ok_spec s id p1 s1 hrf h1
  obtain ⟨s2, h2⟩ := storeSecret_established s1 id p2 k1 hok1 hest1 hrf1
  obtain ⟨k2, e2, hdec2, hest2, hok2, hrf2, -, -, hsec2⟩ :=
    storeSecret_ok_spec s1 id p2 s2 hrf1 h2
  refine ⟨s2, h2, ?_, ?_, ?_⟩
  · have he : lookupEntry (docDataOf s2).secrets id = some e2 := by
      rw [hsec2]; exact lookupEntry_setEntry_self _ id e2
    obtain ⟨s3, hg⟩ := getSecret_established s2 id k2 e2 hok2 hest2 hrf2 he
    exact ⟨s3, by rw [hg, hdec2]⟩
  · refine ⟨ensureKeystoreDir s2, ?_, ?_⟩
    · unfold listSecretKeys
      rw [loadKeystoreData_ok s2 hok2]
    · rw [hsec2, hsec1]
      exact count_keys_setEntry _ id e2 (keys_setEntry_nodup _ id e1 hwfs)
  · intro j hj
    rw [hsec2, lookupEntry_setEntry_other _ id j e2 hj, hsec1,
      lookupEntry_setEntry_other _ id j e1 hj]

/-- C4: after every completed master-key acquisition the persisted
`masterKeyInKeychain` flag tracks the last successful key write: set
true and persisted exactly on a successful vault write, set false and
persisted exactly on a fresh fallback-file write, and the document is
untouched when no key write happens (vault hit, or fallback file
already present). -/
theorem masterKeyFlag_spec (s : St) (k : Nat) (s1 : St)
    (h : getMasterKey s = .ok (k, s1)) :
    ((s.vaultAvail = true ∧ (docDataOf s).masterKeyInKeychain = true ∧
        s.vaultEntry.isSome) →
      s1.docFile = s.docFile ∧ s1.keyFile = s.keyFile ∧
        s1.vaultEntry = s.vaultEntry) ∧
    (¬(s.vaultAvail = true ∧ (docDataOf s).masterKeyInKeychain = true ∧
        s.vaultEntry.isSome) →
      s.vaultAvail = true → s.vaultWriteFails = false →
      s1.docFile = some (.good (KeystoreData.mk (docDataOf s).version true
        (docDataOf s).secrets)) ∧ s1.vaultEntry = some k) ∧
    (¬(s.vaultAvail = true ∧ (docDataOf s).masterKeyInKeychain = true ∧
        s.vaultEntry.isSome) →
      (s.vaultAvail = false ∨ s.vaultWriteFails = true) →
      s.keyFile.isSome →
      s1.docFile = s.docFile ∧ s1.keyFile = s.keyFile) ∧
    (¬(s.vaultAvail = true ∧ (docDataOf s).masterKeyInKeychain = true ∧
        s.vaultEntry.isSome) →
      (s.vaultAvail = false ∨ s.vaultWriteFails = true) →
      s.keyFile = none →
      s1.docFile = some (.good (KeystoreData.mk (docDataOf s).version false
        (docDataOf s).secrets)) ∧ s1.keyFile = some k) := by
  obtain ⟨dir, doc, kf, av, ent, rf, wf, rng⟩ := s
  rcases doc with _ | df
  · cases av <;> cases ent <;> cases rf <;> cases wf <;> cases kf <;>
      (simp [getMasterKey, loadKeystoreData, getMasterKeyGen,
          getMasterKeyFile, ensureKeystoreDir, saveKeystoreData,
          emptyDoc, docDataOf] at h;
        try (obtain ⟨rfl, rfl⟩ := h; simp [docDataOf, emptyDoc]))
  · rcases df with _ | ⟨v, flag, secrets⟩
    · simp [getMasterKey, loadKeystoreData, ensureKeystoreDir] at h
    · cases flag <;> cases av <;> cases ent <;> cases rf <;> cases wf <;>
        cases kf <;>
        (simp [getMasterKey, loadKeystoreData, getMasterKeyGen,
            getMasterKeyFile, ensureKeystoreDir, saveKeystoreData,
            emptyDoc, docDataOf] at h;
          try (obtain ⟨rfl, rfl⟩ := h; simp [docDataOf, emptyDoc]))

/-- C2 (amended): a vault WRITE error during key acquisition is caught
inside the keystore and triggers the fallback path, never surfacing
from `storeSecret`/`getSecret`; as long as vault reads do not throw,
no vault error at all reaches the caller.  (A vault READ error, by
contrast, does propagate: see the counterexample.) -/
theorem vaultWriteErrors_absorbed (s : St) (id p : String)
    (hrf : s.vaultReadFails = false) :
    storeSecret id p s ≠ .error .vaultReadErr ∧
    getSecret id s ≠ .error .vaultReadErr :=
  ⟨storeSecret_no_vaultReadErr s id p hrf, getSecret_no_vaultReadErr s id hrf⟩


/-- C2 counterexample: with keytar loaded, `masterKeyInKeychain = true`
persisted and `getPassword` throwing, both `storeSecret` and
`getSecret` propagate the vault read error to the caller — the claim
that vault read errors are never surfaced is false on the code
(`kt.getPassword` at keystore.ts:53 is not wrapped in try/catch). -/
theorem vaultReadError_propagates :
    cexVaultSt.vaultReadFails = true ∧
    storeSecret "proj:openai" "sk" cexVaultSt = .error .vaultReadErr ∧
    getSecret "proj:openai" cexVaultSt = .error .vaultReadErr :=
  ⟨rfl, rfl, rfl⟩

/-- C5 counterexample: on a state whose keystore directory is missing,
`getKeystoreInfo` creates it (`loadKeystoreData` calls
`ensureKeystoreDir`), so it is not free of filesystem side effects. -/
theorem getKeystoreInfo_creates_dir :
    cexDirSt.dirExists = false ∧
    getKeystoreInfo cexDirSt =
      .ok ((KEYSTORE_FILE, false), ensureKeystoreDir cexDirSt) ∧
    (ensureKeystoreDir cexDirSt).dirExists = true :=
  ⟨rfl, rfl, rfl⟩

/-- Witness for C1 at a concrete fresh state. -/
theorem storeSecret_getSecret_roundTrip_witness :
    demoS.vaultReadFails = false ∧
    storeSecret "proj:openai" "x" demoS = .ok demoStored ∧
    ∃ s2, getSecret "proj:openai" demoStored = .ok (some "x", s2) :=
  ⟨rfl, rfl,
    storeSecret_getSecret_roundTrip demoS demoStored "proj:openai" "x"
      rfl rfl⟩

/-- Witness for C2's amended theorem at a concrete state. -/
theorem vaultWriteErrors_absorbed_witness :
    demoS.vaultReadFails = false ∧
    (storeSecret "proj:openai" "x" demoS ≠ .error .vaultReadErr ∧
      getSecret "proj:openai" demoS ≠ .error .vaultReadErr) :=
  ⟨rfl, vaultWriteErrors_absorbed demoS "proj:openai" "x" rfl⟩

/-- Witness for C3: corrupting the auth tag of the stored entry makes
`getSecret` return absent. -/
theorem tamper_spec_witness :
    demoS.vaultReadFails = false ∧
    storeSecret "proj:openai" "x" demoS = .ok demoStored ∧
    lookupEntry (docDataOf demoStored).secrets "proj:openai" =
      some demoEntry ∧
    ∃ s2, getSecret "proj:openai"
      (tamperEntry demoStored "proj:openai" demoTampered) =
        .ok (none, s2) :=
  ⟨rfl, rfl, rfl,
    tamper_spec demoS demoStored "proj:openai" "x" demoEntry demoTampered
      rfl rfl rfl rfl (Or.inr ⟨rfl, by simp [demoTampered]⟩)⟩

/-- Witness for C4 at the fresh install (fallback-file path). -/
theorem masterKeyFlag_spec_witness :
    getMasterKey demoS = .ok (demoGM.1, demoGM.2) ∧
    ((demoS.vaultAvail = true ∧
        (docDataOf demoS).masterKeyInKeychain = true ∧
        demoS.vaultEntry.isSome) →
      demoGM.2.docFile = demoS.docFile ∧
        demoGM.2.keyFile = demoS.keyFile ∧
        demoGM.2.vaultEntry = demoS.vaultEntry) ∧
    (¬(demoS.vaultAvail = true ∧
        (docDataOf demoS).masterKeyInKeychain = true ∧
        demoS.vaultEntry.isSome) →
      demoS.vaultAvail = true → demoS.vaultWriteFails = false →
      demoGM.2.docFile = some (.good (KeystoreData.mk
        (docDataOf demoS).version true (docDataOf demoS).secrets)) ∧
        demoGM.2.vaultEntry = some demoGM.1) ∧
    (¬(demoS.vaultAvail = true ∧
        (docDataOf demoS).masterKeyInKeychain = true ∧
        demoS.vaultEntry.isSome) →
      (demoS.vaultAvail = false ∨ demoS.vaultWriteFails = true) →
      demoS.keyFile.isSome →
      demoGM.2.docFile = demoS.docFile ∧
        demoGM.2.keyFile = demoS.keyFile) ∧
    (¬(demoS.vaultAvail = true ∧
        (docDataOf demoS).masterKeyInKeychain = true ∧
        demoS.vaultEntry.isSome) →
      (demoS.vaultAvail = false ∨ demoS.vaultWriteFails = true) →
      demoS.keyFile = none →
      demoGM.2.docFile = some (.good (KeystoreData.mk
        (docDataOf demoS).version false (docDataOf demoS).secrets)) ∧
        demoGM.2.keyFile = some demoGM.1) :=
  ⟨rfl, (masterKeyFlag_spec demoS demoGM.1 demoGM.2 rfl).1,
    (masterKeyFlag_spec demoS demoGM.1 demoGM.2 rfl).2.1,
    (masterKeyFlag_spec demoS demoGM.1 demoGM.2 rfl).2.2.1,
    (masterKeyFlag_spec demoS demoGM.1 demoGM.2 rfl).2.2.2⟩

/-- Witness for C5's amended theorem at a concrete state. -/
theorem getKeystoreInfo_spec_witness :
    docOk cexDirSt ∧
    (getKeystoreInfo cexDirSt =
      .ok ((KEYSTORE_FILE, (docDataOf cexDirSt).masterKeyInKeychain),
        ensureKeystoreDir cexDirSt) ∧
    (ensureKeystoreDir cexDirSt).docFile = cexDirSt.docFile ∧
    (ensureKeystoreDir cexDirSt).keyFile = cexDirSt.keyFile ∧
    (ensureKeystoreDir cexDirSt).vaultEntry = cexDirSt.vaultEntry ∧
    (ensureKeystoreDir cexDirSt).rng = cexDirSt.rng ∧
    (ensureKeystoreDir cexDirSt).dirExists = true) :=
  ⟨by decide, getKeystoreInfo_spec cexDirSt (by decide)⟩

/-- Witness for C6 at the state holding one stored secret. -/
theorem deleteSecret_spec_witness :
    docOk demoStored ∧
    ((∀ e, lookupEntry (docDataOf demoStored).secrets "proj:openai" =
        some e →
      ∃ s', deleteSecret "proj:openai" demoStored = .ok (true, s') ∧
        s'.docFile = some (.good (docDataOf s')) ∧
        lookupEntry (docDataOf s').secrets "proj:openai" = none ∧
        (∀ j, j ≠ "proj:openai" → lookupEntry (docDataOf s').secrets j =
          lookupEntry (docDataOf demoStored).secrets j)) ∧
    (lookupEntry (docDataOf demoStored).secrets "proj:openai" = none →
      ∃ s', deleteSecret "proj:openai" demoStored = .ok (false, s') ∧
        s'.docFile = demoStored.docFile ∧
        s'.keyFile = demoStored.keyFile)) :=
  ⟨by decide, deleteSecret_spec demoStored "proj:openai" (by decide)⟩

/-- Witness for C7: two stores under the same identifier on the fresh
install. -/
theorem overwrite_spec_witness :
    demoS.vaultReadFails = false ∧ WFSt demoS ∧
    storeSecret "proj:openai" "x" demoS = .ok demoStored ∧
    ∃ s2, storeSecret "proj:openai" "y" demoStored = .ok s2 ∧
      (∃ s3, getSecret "proj:openai" s2 = .ok (some "y", s3)) ∧
      (∃ s4, listSecretKeys s2 =
          .ok ((docDataOf s2).secrets.map Prod.fst, s4) ∧
        ((docDataOf s2).secrets.map Prod.fst).count "proj:openai" = 1) ∧
      (∀ j, j ≠ "proj:openai" → lookupEntry (docDataOf s2).secrets j =
        lookupEntry (docDataOf demoS).secrets j) :=
  ⟨rfl, by simp [WFSt, demoS, docDataOf, emptyDoc],
    rfl,
    overwrite_spec demoS demoStored "proj:openai" "x" "y" rfl
      (by simp [WFSt, demoS, docDataOf, emptyDoc]) rfl⟩

/-- Witness for C8 at a malformed document. -/
theorem malformedDoc_spec_witness :
    cexMalSt.docFile = some .malformed ∧
    (storeSecret "proj:openai" "x" cexMalSt = .error .parseErr ∧
    getSecret "proj:openai" cexMalSt = .error .parseErr ∧
    deleteSecret "proj:openai" cexMalSt = .error .parseErr ∧
    hasSecret "proj:openai" cexMalSt = .error .parseErr ∧
    listSecretKeys cexMalSt = .error .parseErr ∧
    getKeystoreInfo cexMalSt = .error .parseErr) :=
  ⟨rfl, malformedDoc_spec cexMalSt "proj:openai" "x" rfl⟩

/-- Witness for C9 at the state holding one stored secret. -/
theorem hasSecret_spec_witness :
    docOk demoStored ∧
    (hasSecret "proj:openai" demoStored =
      .ok ((lookupEntry (docDataOf demoStored).secrets
        "proj:openai").isSome, ensureKeystoreDir demoStored) ∧
    (ensureKeystoreDir demoStored).docFile = demoStored.docFile ∧
    (ensureKeystoreDir demoStored).keyFile = demoStored.keyFile ∧
    (ensureKeystoreDir demoStored).vaultEntry = demoStored.vaultEntry ∧
    (ensureKeystoreDir demoStored).rng = demoStored.rng) :=
  ⟨by decide, hasSecret_spec demoStored "proj:openai" (by decide)⟩

/-- Witness for C10 at an absent identifier. -/
theorem getSecret_absent_spec_witness :
    docOk demoStored ∧
    lookupEntry (docDataOf demoStored).secrets "no:such" = none ∧
    (getSecret "no:such" demoStored =
      .ok (none, ensureKeystoreDir demoStored) ∧
    (ensureKeystoreDir demoStored).docFile = demoStored.docFile ∧
    (ensureKeystoreDir demoStored).keyFile = demoStored.keyFile ∧
    (ensureKeystoreDir demoStored).vaultEntry = demoStored.vaultEntry ∧
    (ensureKeystoreDir demoStored).rng = demoStored.rng) :=
  ⟨by decide, rfl,
    getSecret_absent_spec demoStored "no:such" (by decide) rfl⟩

end PalKeystore
